import Mathlib

/-!
Verification of `scripts/last_airbender_sync.py` against its specification.

The Python source is shallowly embedded below.  Machine integers do not
matter (Python integers are unbounded), so row indices are modelled as `Int`
and column indices as `Nat`/`Int` following the validated ranges.  Fallible
functions (`raise SheetSyncError(msg)`) are modelled as `Except String _`
carrying the exact message string.  External collaborators (the Google
Sheets service and the HTTP transport) are modelled as oracles: the values
they would return are passed in, and the calls made to them are recorded as
an explicit event trace.
-/

/-- ASCII whitespace as recognised by Python `str.strip()` (the claims only
exercise ASCII input, so the Unicode space classes are not modelled). -/
def isPySpace (c : Char) : Bool :=
  c = ' ' || c = '\t' || c = '\n' || c = '\r' || c = '\x0b' || c = '\x0c'

/-- `str.strip()` on a character list: drop whitespace from both ends. -/
def pyStripList (l : List Char) : List Char :=
  ((l.dropWhile isPySpace).reverse.dropWhile isPySpace).reverse

/-- Python `str.strip()`. -/
def pyStrip (s : String) : String :=
  ⟨pyStripList s.data⟩

/-- Python `str.upper()` on one character (ASCII range; the claims only use
ASCII letters). -/
def pyUpperChar (c : Char) : Char :=
  if 'a' ≤ c ∧ c ≤ 'z' then Char.ofNat (c.toNat - 32) else c

/-- Python `str.upper()`. -/
def pyUpper (s : String) : String :=
  ⟨s.data.map pyUpperChar⟩

/-- Python `str.lower()` on one character (ASCII range). -/
def pyLowerChar (c : Char) : Char :=
  if 'A' ≤ c ∧ c ≤ 'Z' then Char.ofNat (c.toNat + 32) else c

/-- Python `str.lower()`. -/
def pyLower (s : String) : String :=
  ⟨s.data.map pyLowerChar⟩

/-- `RARITY_MAP` from the source (lines 40–45). -/
def RARITY_MAP : List (String × String) :=
  [("mythic", "M"), ("rare", "R"), ("uncommon", "U"), ("common", "C")]

/-- The loop body of `column_to_index` (lines 52–56): fold over the stripped,
uppercased characters; an out-of-range character raises
`SheetSyncError(f"Invalid column reference: {column}")` where `column` is the
stripped, uppercased string. -/
def colLoop (col : String) : List Char → Nat → Except String Nat
  | [], acc => .ok acc
  | c :: rest, acc =>
    if 'A' ≤ c ∧ c ≤ 'Z' then
      colLoop col rest (acc * 26 + (c.toNat - 'A'.toNat + 1))
    else
      .error ("Invalid column reference: " ++ col)

/-- `column_to_index` (source lines 48–57): strip and uppercase, reject the
empty string, then accumulate bijective base-26. -/
def column_to_index (column : String) : Except String Nat :=
  if pyUpper (pyStrip column) = "" then .error "Column reference cannot be empty."
  else colLoop (pyUpper (pyStrip column)) (pyUpper (pyStrip column)).data 0

/-- The `while index:` loop of `index_to_column` (lines 63–67), with the
final `reversed` already applied: the digits are produced most significant
first by recursing on `divmod(index - 1, 26)`.  A fuel argument makes the
recursion structural; `n / 26 ≤ n`, so fuel `n` never runs out (proved in
`idxCharsAux_fuel` below). -/
def idxCharsAux : Nat → Nat → List Char
  | _, 0 => []
  | 0, _ + 1 => []
  | fuel + 1, n + 1 => idxCharsAux fuel (n / 26) ++ [Char.ofNat (65 + n % 26)]

/-- The digit list produced by `index_to_column`'s loop for a positive index. -/
def idxChars (n : Nat) : List Char :=
  idxCharsAux n n

/-- `index_to_column` (source lines 60–67).  The Python argument is an
unbounded `int`, so the model takes an `Int` and rejects everything below 1. -/
def index_to_column (index : Int) : Except String String :=
  if index < 1 then .error "Column index must be >= 1."
  else .ok ⟨idxChars index.toNat⟩

/-- A letter A–Z in either case: the inputs `column_to_index` accepts (after
stripping). -/
def isAsciiLetter (c : Char) : Bool :=
  ('A' ≤ c && c ≤ 'Z') || ('a' ≤ c && c ≤ 'z')

/-- The pure value computed by `column_to_index`'s loop on an already valid
character list. -/
def colVal (l : List Char) : Nat :=
  l.foldl (fun acc c => acc * 26 + (c.toNat - 'A'.toNat + 1)) 0

/-- `CardRecord` (source lines 74–79). -/
structure CardRecord where
  name : String
  rarity : String
deriving Repr, DecidableEq

/-- `CardRecord.rarity_code` (source lines 81–83): `RARITY_MAP.get(self.rarity.lower())`. -/
def CardRecord.rarity_code (c : CardRecord) : Option String :=
  RARITY_MAP.lookup (pyLower c.rarity)

/-- The spec's `mapRarity` (4.3): the `RARITY_MAP.get(text.lower())` lookup
pattern of the source. -/
def mapRarity (rarityText : String) : Option String :=
  RARITY_MAP.lookup (pyLower rarityText)

deriving instance DecidableEq for Except

/-- `SyncResult` (source lines 86–91). -/
structure SyncResult where
  updated : Nat
  missing_cards : List String
deriving Repr, DecidableEq

/-- Python `dict` assignment `d[k] = v`: replace the value in place when the
key is present, append a new binding otherwise.  Lookups use
`List.lookup` (first match); `dinsert` keeps keys unique, so the first match
is the most recent assignment. -/
def dinsert {α : Type} (m : List (String × α)) (k : String) (v : α) :
    List (String × α) :=
  if (m.lookup k).isSome then
    m.map (fun kv => if kv.1 = k then (k, v) else kv)
  else
    m ++ [(k, v)]

/-- One raw JSON card object of a Scryfall page: `card.get("name")` and
`card.get("rarity")` may each be absent. -/
structure RawCard where
  name : Option String
  rarity : Option String
deriving Repr, DecidableEq

/-- The fields of a Scryfall page the fetcher reads: `payload.get("data")`,
`payload.get("has_more")`, `payload.get("next_page")`. -/
structure Payload where
  data : List RawCard
  hasMore : Bool
  nextPage : Option String
deriving Repr, DecidableEq

/-- One HTTP response as discriminated by `fetch_scryfall_cards`
(lines 213–231): HTTP 429, a 5xx status, any other non-success status, or a
success carrying a JSON payload. -/
inductive Resp where
  | rateLimit (retryAfter : Option Nat)
  | serverError (status : Nat)
  | otherFail (status : Nat) (body : String)
  | ok (payload : Payload)
deriving Repr, DecidableEq

/-- The per-card body of the aggregation loop (lines 235–240):
`name = (card.get("name") or "").strip()`, skip when the name is empty or the
rarity is absent or empty (`if not name or not rarity`), otherwise
`cards[name] = CardRecord(name=name, rarity=rarity)`. -/
def addCard (cards : List (String × CardRecord)) (c : RawCard) :
    List (String × CardRecord) :=
  let name := pyStrip (c.name.getD "")
  match c.rarity with
  | none => cards
  | some r => if name = "" ∨ r = "" then cards
              else dinsert cards name ⟨name, r⟩

/-- The `for card in payload.get("data", [])` loop (lines 235–240). -/
def addCards (cards : List (String × CardRecord)) (data : List RawCard) :
    List (String × CardRecord) :=
  data.foldl addCard cards

/-- The `while url:` loop of `fetch_scryfall_cards` (lines 207–246), one
response consumed per request.  State: the next responses, the current URL,
the retry counter, the aggregated cards, and the recorded `time.sleep`
durations.  Returns the sleep trace and either the cards or the raised
`SheetSyncError` message.  On 429 the code sleeps `Retry-After` (default 2),
increments `retries`, and only then checks the ceiling `retries > 5`; on 5xx
it increments, checks the ceiling, then sleeps `2 ** retries`.  A successful
page resets `retries` to 0, folds its data into the map, and follows
`next_page` only when `has_more` is set and `next_page` is present.  An
exhausted response oracle stands for a transport that never answers and is
reported as a distinguished model-level error. -/
def fetchLoop : List Resp → String → Nat → List (String × CardRecord) →
    List Nat → List Nat × Except String (List (String × CardRecord))
  | [], _, _, _, sleeps => (sleeps, .error "model: transport gave no response")
  | .rateLimit ra :: rest, url, retries, cards, sleeps =>
    let sleeps := sleeps ++ [ra.getD 2]
    if retries + 1 > 5 then
      (sleeps, .error "Exceeded retry attempts due to Scryfall rate limits.")
    else
      fetchLoop rest url (retries + 1) cards sleeps
  | .serverError status :: rest, url, retries, cards, sleeps =>
    if retries + 1 > 5 then
      (sleeps, .error ("Scryfall returned " ++ toString status ++
        " repeatedly. Aborting."))
    else
      fetchLoop rest url (retries + 1) cards (sleeps ++ [2 ^ (retries + 1)])
  | .otherFail status body :: _, _, _, _, sleeps =>
    (sleeps, .error ("Scryfall request failed with " ++ toString status ++
      ": " ++ body))
  | .ok p :: rest, _, _, cards, sleeps =>
    let cards := addCards cards p.data
    if p.hasMore then
      match p.nextPage with
      | some nxt => fetchLoop rest nxt 0 cards sleeps
      | none => (sleeps, .ok cards)
    else (sleeps, .ok cards)

/-- `fetch_scryfall_cards` (lines 200–248) applied to a response oracle:
start at the search endpoint with zero retries, an empty map and no sleeps. -/
def fetch_scryfall_cards (responses : List Resp) :
    List Nat × Except String (List (String × CardRecord)) :=
  fetchLoop responses "https://api.scryfall.com/cards/search" 0 [] []

/-- A response-per-page chain that the `while url:` loop follows to
exhaustion: every page but the last announces a continuation
(`has_more` with a `next_page`), and the last page has `has_more` unset. -/
def chained : List Payload → Bool
  | [] => false
  | [p] => !p.hasMore
  | p :: rest => p.hasMore && p.nextPage.isSome && chained rest

/-- The `enumerate(values, start=start_row)` loop of `read_sheet_rows`
(lines 266–272): empty rows are skipped, a non-empty row contributes
`(index, row[0])`. -/
def enumRows : Int → List (List String) → List (Int × String)
  | _, [] => []
  | i, [] :: rest => enumRows (i + 1) rest
  | i, (cell :: _) :: rest => (i, cell) :: enumRows (i + 1) rest

/-- The reconciliation loop of `sync_sheet` (lines 311–326): trim each row's
text; skip rows whose trimmed text is empty; a name absent from the catalog,
or present with an unmapped rarity, appends the original untrimmed text to
`missing_cards`; otherwise `(row_index, code)` is appended to `updates`. -/
def reconcile (rows : List (Int × String)) (cards : List (String × CardRecord)) :
    List (Int × String) × List String :=
  match rows with
  | [] => ([], [])
  | (i, card_name) :: rest =>
    let (us, ms) := reconcile rest cards
    let normalized := pyStrip card_name
    if normalized = "" then (us, ms)
    else
      match cards.lookup normalized with
      | none => (us, card_name :: ms)
      | some card =>
        match card.rarity_code with
        | none => (us, card_name :: ms)
        | some code => ((i, code) :: us, ms)

/-- The classification of a single sheet row implicit in the `sync_sheet`
loop: skipped (blank after trimming), updated with a rarity code, or
missing. -/
inductive RowOutcome where
  | skipped
  | updated (code : String)
  | missing
deriving Repr, DecidableEq

/-- The per-row decision of the `sync_sheet` loop (lines 314–326). -/
def rowOutcome (cards : List (String × CardRecord)) (r : Int × String) :
    RowOutcome :=
  let normalized := pyStrip r.2
  if normalized = "" then .skipped
  else
    match cards.lookup normalized with
    | none => .missing
    | some card =>
      match card.rarity_code with
      | none => .missing
      | some code => .updated code

/-- Network calls `main`/`sync_sheet` can make against external services. -/
inductive NetEvent where
  | createSpreadsheet
  | fetchCatalog
  | readSheet
  | writeSheet
deriving Repr, DecidableEq

/-- Observable output of one `sync_sheet` call: the network calls made, the
dry-run preview lines printed, and the returned `SyncResult` or raised
error. -/
structure SyncOut where
  events : List NetEvent
  previews : List String
  result : Except String SyncResult
deriving Repr, DecidableEq

/-- `sync_sheet` (lines 299–334) with the sheet collaborator as an oracle:
`values` is what `service.spreadsheets().values().get(...)` would return.
`read_sheet_rows` validates `start_row < 1` before issuing its read
(lines 254–255); the column is validated only afterwards, by
`column_to_index` on line 309; in dry-run mode one preview line is printed
per update and no write is issued; otherwise `write_rarities` issues one
batched write, or none when `updates` is empty (lines 282–283). -/
def sync_sheet (column : String) (startRow : Int)
    (cards : List (String × CardRecord)) (dryRun : Bool)
    (values : List (List String)) : SyncOut :=
  if startRow < 1 then ⟨[], [], .error "start_row must be >= 1"⟩
  else
    let rows := enumRows startRow values
    match column_to_index column with
    | .error e => ⟨[.readSheet], [], .error e⟩
    | .ok ci =>
      match index_to_column ((ci : Int) + 1) with
      | .error e => ⟨[.readSheet], [], .error e⟩
      | .ok _ =>
        let (updates, missing_cards) := reconcile rows cards
        if dryRun then
          ⟨[.readSheet],
           updates.map (fun u => "Would update row " ++ toString u.1 ++
             " to " ++ u.2),
           .ok ⟨updates.length, missing_cards⟩⟩
        else if updates.isEmpty then
          ⟨[.readSheet], [], .ok ⟨updates.length, missing_cards⟩⟩
        else
          ⟨[.readSheet, .writeSheet], [], .ok ⟨updates.length, missing_cards⟩⟩

/-- The configuration surface of `main` (lines 337–375) that matters to the
sync: a parsed spreadsheet id when `--sheet-url` yields one, the name
column, the start row, and the dry-run flag. -/
structure Config where
  sheetId : Option String
  column : String
  startRow : Int
  dryRun : Bool
deriving Repr, DecidableEq

/-- What the external collaborators would answer: the sheet read response
and the already-aggregated catalog (credential loading is a local
collaborator, and both remote collaborators are taken to succeed — the
claims under test concern the order of the calls, not their failures). -/
structure Oracles where
  sheetValues : List (List String)
  cards : List (String × CardRecord)
deriving Repr, DecidableEq

/-- The `main` sequence (lines 337–375) after credential loading: create a
spreadsheet when no sheet id was parsed (line 351), fetch the catalog
(line 358), then run `sync_sheet` (line 364).  Returns the network-call
trace and the result. -/
def mainRun (cfg : Config) (o : Oracles) :
    List NetEvent × Except String SyncResult :=
  let ev0 : List NetEvent :=
    match cfg.sheetId with
    | some _ => []
    | none => [.createSpreadsheet]
  let out := sync_sheet cfg.column cfg.startRow o.cards cfg.dryRun
    o.sheetValues
  (ev0 ++ [.fetchCatalog] ++ out.events, out.result)

/-! ### Character arithmetic -/

theorem char_le_iff {a b : Char} : a ≤ b ↔ a.toNat ≤ b.toNat := by
  rw [Char.le_def, UInt32.le_def, BitVec.le_def]
  exact Iff.rfl

theorem char_toNat_ofNat {n : Nat} (h : n < 55296) : (Char.ofNat n).toNat = n := by
  have hv : n.isValidChar := Or.inl h
  rw [Char.ofNat, dif_pos hv]
  simp [Char.ofNatAux, Char.toNat, UInt32.toNat]

theorem letter_bounds {c : Char} (h : isAsciiLetter c = true) :
    (65 ≤ c.toNat ∧ c.toNat ≤ 90) ∨ (97 ≤ c.toNat ∧ c.toNat ≤ 122) := by
  simp only [isAsciiLetter, Bool.or_eq_true, Bool.and_eq_true, decide_eq_true_eq] at h
  rcases h with ⟨h1, h2⟩ | ⟨h1, h2⟩
  · exact Or.inl ⟨char_le_iff.mp h1, char_le_iff.mp h2⟩
  · exact Or.inr ⟨char_le_iff.mp h1, char_le_iff.mp h2⟩

theorem letter_not_space {c : Char} (h : isAsciiLetter c = true) :
    isPySpace c = false := by
  have hb := letter_bounds h
  by_contra hs
  rw [Bool.not_eq_false] at hs
  simp only [isPySpace, Bool.or_eq_true, decide_eq_true_eq] at hs
  rcases hs with ((((he | he) | he) | he) | he) | he <;>
    (subst he; revert hb; decide)

theorem upperChar_toNat_bounds {c : Char} (h : isAsciiLetter c = true) :
    65 ≤ (pyUpperChar c).toNat ∧ (pyUpperChar c).toNat ≤ 90 := by
  have ha : ('a').toNat = 97 := by decide
  have hz : ('z').toNat = 122 := by decide
  rcases letter_bounds h with ⟨h1, h2⟩ | ⟨h1, h2⟩
  · have hcond : ¬('a' ≤ c ∧ c ≤ 'z') := by
      intro ⟨hlo, _⟩
      have := char_le_iff.mp hlo
      omega
    rw [pyUpperChar, if_neg hcond]
    omega
  · have hcond : 'a' ≤ c ∧ c ≤ 'z' :=
      ⟨char_le_iff.mpr (by omega), char_le_iff.mpr (by omega)⟩
    rw [pyUpperChar, if_pos hcond]
    rw [char_toNat_ofNat (by omega)]
    omega

theorem upperChar_letter {c : Char} (h : isAsciiLetter c = true) :
    'A' ≤ pyUpperChar c ∧ pyUpperChar c ≤ 'Z' := by
  have hb := upperChar_toNat_bounds h
  have hA : ('A').toNat = 65 := by decide
  have hZ : ('Z').toNat = 90 := by decide
  exact ⟨char_le_iff.mpr (by omega), char_le_iff.mpr (by omega)⟩

/-! ### `str.strip()` lemmas -/

theorem dropWhile_of_forall_true {p : Char → Bool} :
    ∀ l : List Char, (∀ c ∈ l, p c = true) → l.dropWhile p = [] := by
  intro l h
  induction l with
  | nil => rfl
  | cons a rest ih =>
    rw [List.dropWhile_cons_of_pos (h a (List.mem_cons_self a rest))]
    exact ih (fun c hc => h c (List.mem_cons_of_mem a hc))

theorem dropWhile_of_forall_false {p : Char → Bool}
    (l : List Char) (h : ∀ c ∈ l, p c = false) : l.dropWhile p = l := by
  cases l with
  | nil => rfl
  | cons a rest =>
    rw [List.dropWhile_cons_of_neg]
    rw [h a (List.mem_cons_self a rest)]
    exact Bool.false_ne_true

theorem dropWhile_append_of_forall_true {p : Char → Bool} :
    ∀ l1 l2 : List Char, (∀ c ∈ l1, p c = true) →
      (l1 ++ l2).dropWhile p = l2.dropWhile p := by
  intro l1 l2 h
  induction l1 with
  | nil => rfl
  | cons a rest ih =>
    rw [List.cons_append,
      List.dropWhile_cons_of_pos (h a (List.mem_cons_self a rest))]
    exact ih (fun c hc => h c (List.mem_cons_of_mem a hc))

/-- Stripping removes exactly the all-whitespace margins around a
whitespace-free core. -/
theorem pyStripList_spec (pre mid post : List Char)
    (hpre : ∀ c ∈ pre, isPySpace c = true)
    (hpost : ∀ c ∈ post, isPySpace c = true)
    (hmid : ∀ c ∈ mid, isPySpace c = false) :
    pyStripList (pre ++ mid ++ post) = mid := by
  rw [pyStripList, List.append_assoc, dropWhile_append_of_forall_true _ _ hpre]
  cases mid with
  | nil =>
    rw [List.nil_append, dropWhile_of_forall_true post hpost]
    rfl
  | cons m rest =>
    rw [List.cons_append, List.dropWhile_cons_of_neg (by
      rw [hmid m (List.mem_cons_self m rest)]; exact Bool.false_ne_true)]
    rw [show m :: (rest ++ post) = (m :: rest) ++ post from rfl]
    rw [List.reverse_append, dropWhile_append_of_forall_true _ _
      (fun c hc => hpost c (List.mem_reverse.mp hc))]
    rw [dropWhile_of_forall_false _
      (fun c hc => hmid c (List.mem_reverse.mp hc))]
    exact List.reverse_reverse _

theorem pyStrip_of_no_space (l : List Char) (h : ∀ c ∈ l, isPySpace c = false) :
    pyStripList l = l := by
  have := pyStripList_spec [] l [] (by simp) (by simp) h
  simpa using this

/-! ### `column_to_index` loop lemmas -/

theorem colLoop_ok (col : String) :
    ∀ (l : List Char) (acc : Nat), (∀ c ∈ l, 'A' ≤ c ∧ c ≤ 'Z') →
      colLoop col l acc =
        .ok (l.foldl (fun a c => a * 26 + (c.toNat - 'A'.toNat + 1)) acc) := by
  intro l
  induction l with
  | nil => intro acc _; rfl
  | cons c rest ih =>
    intro acc h
    rw [colLoop, if_pos (h c (List.mem_cons_self c rest))]
    rw [ih _ (fun d hd => h d (List.mem_cons_of_mem c hd))]
    rfl

theorem colLoop_err (col : String) :
    ∀ (l : List Char) (acc : Nat) (ch : Char), ch ∈ l →
      ¬('A' ≤ ch ∧ ch ≤ 'Z') →
      colLoop col l acc = .error ("Invalid column reference: " ++ col) := by
  intro l
  induction l with
  | nil => intro acc ch h; exact absurd h (List.not_mem_nil ch)
  | cons c rest ih =>
    intro acc ch hmem hbad
    by_cases hc : 'A' ≤ c ∧ c ≤ 'Z'
    · rw [colLoop, if_pos hc]
      rcases List.mem_cons.mp hmem with he | ht
      · exact absurd (he ▸ hc) hbad
      · exact ih _ ch ht hbad
    · rw [colLoop, if_neg hc]

theorem colLoop_acc_le (l : List Char) :
    ∀ acc : Nat,
      acc ≤ l.foldl (fun a c => a * 26 + (c.toNat - 'A'.toNat + 1)) acc := by
  induction l with
  | nil => intro acc; exact Nat.le_refl acc
  | cons c rest ih =>
    intro acc
    rw [List.foldl_cons]
    exact Nat.le_trans (by omega) (ih (acc * 26 + (c.toNat - 'A'.toNat + 1)))

theorem colVal_pos (l : List Char) (h : l ≠ []) : 1 ≤ colVal l := by
  cases l with
  | nil => exact absurd rfl h
  | cons c rest =>
    rw [colVal, List.foldl_cons]
    exact Nat.le_trans (by omega) (colLoop_acc_le rest _)

/-! ### `index_to_column` loop lemmas and the round trip -/

/-- The fuel argument of `idxCharsAux` is irrelevant as long as it is at
least the index. -/
theorem idxCharsAux_fuel :
    ∀ f g n : Nat, n ≤ f → n ≤ g → idxCharsAux f n = idxCharsAux g n := by
  intro f
  induction f with
  | zero =>
    intro g n hf _
    interval_cases n
    cases g <;> rfl
  | succ f ih =>
    intro g n hf hg
    match n, g with
    | 0, g => cases g <;> rfl
    | m + 1, g + 1 =>
      show idxCharsAux f (m / 26) ++ _ = idxCharsAux g (m / 26) ++ _
      rw [ih g (m / 26)
        (Nat.le_trans (Nat.div_le_self m 26) (Nat.lt_succ_iff.mp hf))
        (Nat.le_trans (Nat.div_le_self m 26) (Nat.lt_succ_iff.mp hg))]

/-- Unfolding equation for `idxChars` at a positive index, mirroring one
iteration of the Python `while` loop. -/
theorem idxChars_succ (n : Nat) :
    idxChars (n + 1) = idxChars (n / 26) ++ [Char.ofNat (65 + n % 26)] := by
  show idxCharsAux n (n / 26) ++ _ = idxCharsAux (n / 26) (n / 26) ++ _
  rw [idxCharsAux_fuel n (n / 26) (n / 26) (Nat.div_le_self n 26) (Nat.le_refl _)]

/-- Bijective base-26 round trip on uppercase letter lists: decoding the
value computed by `column_to_index`'s loop reproduces the letters. -/
theorem idxChars_colVal :
    ∀ l : List Char, (∀ c ∈ l, 'A' ≤ c ∧ c ≤ 'Z') → idxChars (colVal l) = l := by
  intro l
  induction l using List.reverseRecOn with
  | nil => intro _; rfl
  | append_singleton l c ih =>
    intro h
    have hc := h c (by simp)
    have hl : ∀ d ∈ l, 'A' ≤ d ∧ d ≤ 'Z' := fun d hd => h d (by simp [hd])
    have hA : ('A').toNat = 65 := by decide
    have hZ : ('Z').toNat = 90 := by decide
    have ht1 : 65 ≤ c.toNat := by have := char_le_iff.mp hc.1; omega
    have ht2 : c.toNat ≤ 90 := by have := char_le_iff.mp hc.2; omega
    have hfold : colVal (l ++ [c]) = colVal l * 26 + (c.toNat - 'A'.toNat + 1) := by
      rw [colVal, List.foldl_append]
      rfl
    rw [hfold, hA]
    have hsucc : colVal l * 26 + (c.toNat - 65 + 1) =
        (colVal l * 26 + (c.toNat - 65)) + 1 := by omega
    rw [hsucc, idxChars_succ]
    have hdiv : (colVal l * 26 + (c.toNat - 65)) / 26 = colVal l := by omega
    have hmod : (colVal l * 26 + (c.toNat - 65)) % 26 = c.toNat - 65 := by omega
    rw [hdiv, hmod, ih hl]
    have h65 : 65 + (c.toNat - 65) = c.toNat := by omega
    rw [h65, Char.ofNat_toNat]

/-- `column_to_index` on a non-empty all-letter string: no stripping occurs,
the loop succeeds, and the computed value is positive and decodes back to
the uppercased letters. -/
theorem col_ok (l : List Char) (h1 : l ≠ []) (h2 : ∀ c ∈ l, isAsciiLetter c = true) :
    pyStrip ⟨l⟩ = ⟨l⟩ ∧
    column_to_index ⟨l⟩ = .ok (colVal (l.map pyUpperChar)) ∧
    1 ≤ colVal (l.map pyUpperChar) ∧
    idxChars (colVal (l.map pyUpperChar)) = l.map pyUpperChar := by
  have hstrip : pyStrip ⟨l⟩ = ⟨l⟩ := by
    show (⟨pyStripList l⟩ : String) = ⟨l⟩
    rw [pyStrip_of_no_space l (fun c hc => letter_not_space (h2 c hc))]
  have hmapne : l.map pyUpperChar ≠ [] := by
    intro hme
    exact h1 (List.map_eq_nil_iff.mp hme)
  have hvalid : ∀ c ∈ l.map pyUpperChar, 'A' ≤ c ∧ c ≤ 'Z' := by
    intro c hc
    rcases List.mem_map.mp hc with ⟨d, hd, rfl⟩
    exact upperChar_letter (h2 d hd)
  refine ⟨hstrip, ?_, colVal_pos _ hmapne, idxChars_colVal _ hvalid⟩
  rw [column_to_index, hstrip]
  rw [if_neg (by
    intro he
    exact hmapne (congrArg String.data he))]
  show colLoop (pyUpper ⟨l⟩) (l.map pyUpperChar) 0 =
    Except.ok (colVal (l.map pyUpperChar))
  rw [colLoop_ok _ _ 0 hvalid]
  rfl

/-! ### Claim theorems: column addressing -/

/-- C3: for every valid column reference `c` (a non-empty string of letters
A–Z in either case, of any length), `index_to_column (column_to_index c)`
equals the uppercase normalization of `c`; in particular
`column_to_index "A" = 1`, `column_to_index "Z" = 26`,
`column_to_index "AA" = 27`, and `index_to_column 27 = "AA"`. -/
theorem c3_column_round_trip :
    (∀ c : String, c.data ≠ [] → (∀ ch ∈ c.data, isAsciiLetter ch = true) →
      ∃ n : Nat, column_to_index c = .ok n ∧
        index_to_column (n : Int) = .ok (pyUpper c)) ∧
    column_to_index "A" = .ok 1 ∧
    column_to_index "Z" = .ok 26 ∧
    column_to_index "AA" = .ok 27 ∧
    index_to_column 27 = .ok "AA" := by
  refine ⟨?_, by decide, by decide, by decide, by decide⟩
  intro c h1 h2
  obtain ⟨hs, hok, hpos, hidx⟩ := col_ok c.data h1 h2
  refine ⟨colVal (c.data.map pyUpperChar), hok, ?_⟩
  rw [index_to_column, if_neg (by omega)]
  have htn : ((colVal (c.data.map pyUpperChar) : Int)).toNat =
      colVal (c.data.map pyUpperChar) := Int.toNat_natCast _
  rw [htn]
  show Except.ok ⟨idxChars (colVal (c.data.map pyUpperChar))⟩ =
    Except.ok (pyUpper c)
  rw [hidx]
  rfl

/-- Witness for C3's universally quantified part at the concrete mixed-case
column `"aB"`. -/
theorem c3_column_round_trip_witness :
    ∃ n : Nat, column_to_index "aB" = .ok n ∧
      index_to_column (n : Int) = .ok (pyUpper "aB") :=
  c3_column_round_trip.1 "aB" (by decide) (by decide)

/-- C7 as stated is false: `" A "` contains the character `' '`, which is
outside A–Z, yet `column_to_index " A "` succeeds (the argument is stripped
first). -/
theorem c7_counterexample :
    ' ' ∈ " A ".data ∧ ¬('A' ≤ ' ' ∧ ' ' ≤ 'Z') ∧
      column_to_index " A " = .ok 1 := by
  decide

/-- C7 amended: `column_to_index` fails with the invalid-column error for
every string whose stripped, uppercased form is empty or still contains a
character outside A–Z (in particular `""` and `"A1"`), and
`index_to_column` fails for every index < 1 (in particular 0). -/
theorem c7_invalid_inputs :
    (∀ s : String, pyUpper (pyStrip s) = "" →
      column_to_index s = .error "Column reference cannot be empty.") ∧
    (∀ s : String, ∀ ch ∈ (pyUpper (pyStrip s)).data,
      ¬('A' ≤ ch ∧ ch ≤ 'Z') →
      column_to_index s =
        .error ("Invalid column reference: " ++ pyUpper (pyStrip s))) ∧
    column_to_index "" = .error "Column reference cannot be empty." ∧
    column_to_index "A1" = .error "Invalid column reference: A1" ∧
    (∀ i : Int, i < 1 →
      index_to_column i = .error "Column index must be >= 1.") ∧
    index_to_column 0 = .error "Column index must be >= 1." := by
  refine ⟨?_, ?_, by decide, by decide, ?_, by decide⟩
  · intro s h
    rw [column_to_index, if_pos h]
  · intro s ch hch hbad
    rw [column_to_index, if_neg (by
      intro he
      rw [he] at hch
      exact List.not_mem_nil ch hch)]
    exact colLoop_err _ _ 0 ch hch hbad
  · intro i h
    rw [index_to_column, if_pos h]

/-- Witness for C7 (amended) at concrete inputs: a whitespace-only column,
a stripped string still containing a digit, and a negative index. -/
theorem c7_invalid_inputs_witness :
    column_to_index "  " = .error "Column reference cannot be empty." ∧
    column_to_index " 9 " =
      .error ("Invalid column reference: " ++ pyUpper (pyStrip " 9 ")) ∧
    index_to_column (-3) = .error "Column index must be >= 1." :=
  ⟨c7_invalid_inputs.1 "  " (by decide),
   c7_invalid_inputs.2.1 " 9 " '9' (by decide) (by decide),
   c7_invalid_inputs.2.2.2.2.1 (-3) (by decide)⟩

/-- C10: `column_to_index` strips leading and trailing whitespace before
validating: any valid letter sequence surrounded by whitespace succeeds with
the index of the trimmed, uppercased letters (e.g. `" a "`), and a
whitespace-only string fails exactly like the empty string. -/
theorem c10_column_strips_whitespace :
    (∀ pre mid post : List Char,
      (∀ c ∈ pre, isPySpace c = true) → (∀ c ∈ post, isPySpace c = true) →
      mid ≠ [] → (∀ c ∈ mid, isAsciiLetter c = true) →
      pyStrip ⟨pre ++ mid ++ post⟩ = ⟨mid⟩ ∧
      column_to_index ⟨pre ++ mid ++ post⟩ = column_to_index ⟨mid⟩ ∧
      column_to_index ⟨mid⟩ = .ok (colVal (mid.map pyUpperChar))) ∧
    column_to_index " a " = .ok 1 ∧
    (∀ s : String, (∀ c ∈ s.data, isPySpace c = true) →
      column_to_index s = .error "Column reference cannot be empty." ∧
      column_to_index s = column_to_index "") := by
  refine ⟨?_, by decide, ?_⟩
  · intro pre mid post hpre hpost hne hmid
    have hstrip : pyStrip ⟨pre ++ mid ++ post⟩ = ⟨mid⟩ := by
      show (⟨pyStripList (pre ++ mid ++ post)⟩ : String) = ⟨mid⟩
      rw [pyStripList_spec pre mid post hpre hpost
        (fun c hc => letter_not_space (hmid c hc))]
    obtain ⟨hs, hok, _, _⟩ := col_ok mid hne hmid
    refine ⟨hstrip, ?_, hok⟩
    rw [column_to_index, column_to_index, hstrip, hs]
  · intro s h
    have hstrip : pyStrip s = "" := by
      show (⟨pyStripList s.data⟩ : String) = ""
      rw [pyStripList, dropWhile_of_forall_true s.data h]
      rfl
    constructor
    · rw [column_to_index, hstrip, if_pos (by decide)]
    · rw [column_to_index, hstrip]
      rfl

/-- Witness for C10 at `" a "` (via the list-level part) and at the
whitespace-only string `"  "`. -/
theorem c10_column_strips_whitespace_witness :
    (pyStrip ⟨[' '] ++ ['a'] ++ [' ']⟩ = ⟨['a']⟩ ∧
      column_to_index ⟨[' '] ++ ['a'] ++ [' ']⟩ = column_to_index ⟨['a']⟩ ∧
      column_to_index ⟨['a']⟩ = .ok (colVal (['a'].map pyUpperChar))) ∧
    (column_to_index "  " = .error "Column reference cannot be empty." ∧
      column_to_index "  " = column_to_index "") :=
  ⟨c10_column_strips_whitespace.1 [' '] ['a'] [' ']
    (by decide) (by decide) (by decide) (by decide),
   c10_column_strips_whitespace.2.2 "  " (by decide)⟩

/-! ### Python dict lemmas -/

theorem lookup_map_replace {α : Type} (k : String) (v : α) :
    ∀ m : List (String × α),
      (m.map (fun kv => if kv.1 = k then (k, v) else kv)).lookup k =
        if (m.lookup k).isSome then some v else none := by
  intro m
  induction m with
  | nil => rfl
  | cons head tail ih =>
    obtain ⟨k1, v1⟩ := head
    by_cases hk : k1 = k
    · subst hk
      have hhead : (if (k1, v1).1 = k1 then (k1, v) else (k1, v1)) =
          (k1, v) := by simp
      rw [List.map_cons, hhead, List.lookup_cons, List.lookup_cons]
      simp
    · have hhead : (if (k1, v1).1 = k then (k, v) else (k1, v1)) =
          (k1, v1) := by simp [hk]
      rw [List.map_cons, hhead, List.lookup_cons, List.lookup_cons]
      have hne : (k == k1) = false := by
        simp [Ne.symm hk]
      simp only [hne]
      exact ih

theorem lookup_append_right {α : Type} (k : String) :
    ∀ (m l : List (String × α)), m.lookup k = none →
      (m ++ l).lookup k = l.lookup k := by
  intro m l
  induction m with
  | nil => intro _; rfl
  | cons head tail ih =>
    intro h
    obtain ⟨k1, v1⟩ := head
    rw [List.lookup_cons] at h
    rw [List.cons_append, List.lookup_cons]
    cases hbe : (k == k1) with
    | true => rw [hbe] at h; exact absurd h (by simp)
    | false => rw [hbe] at h; exact ih h

/-- Overwrite semantics of `d[k] = v`: a later assignment wins on lookup. -/
theorem dinsert_lookup_self {α : Type} (m : List (String × α)) (k : String)
    (v : α) : (dinsert m k v).lookup k = some v := by
  rw [dinsert]
  by_cases h : (m.lookup k).isSome
  · rw [if_pos h, lookup_map_replace, if_pos h]
  · rw [if_neg h]
    rw [lookup_append_right k m _ (by
      cases hm : m.lookup k with
      | none => rfl
      | some w => rw [hm] at h; exact absurd rfl h)]
    simp [List.lookup]

theorem lookup_map_replace_other {α : Type} (k : String) (v : α)
    (k' : String) (hne : k' ≠ k) :
    ∀ m : List (String × α),
      (m.map (fun kv => if kv.1 = k then (k, v) else kv)).lookup k' =
        m.lookup k' := by
  intro m
  induction m with
  | nil => rfl
  | cons head tail ih =>
    obtain ⟨k1, v1⟩ := head
    by_cases hk : k1 = k
    · subst hk
      have hhead : (if (k1, v1).1 = k1 then (k1, v) else (k1, v1)) =
          (k1, v) := by simp
      rw [List.map_cons, hhead, List.lookup_cons, List.lookup_cons]
      have hfalse : (k' == k1) = false := by simp [hne]
      simp only [hfalse]
      exact ih
    · have hhead : (if (k1, v1).1 = k then (k, v) else (k1, v1)) =
          (k1, v1) := by simp [hk]
      rw [List.map_cons, hhead, List.lookup_cons, List.lookup_cons]
      cases hbe : (k' == k1) with
      | true => rfl
      | false => exact ih

theorem lookup_append_other {α : Type} (k : String) (v : α)
    (k' : String) (hne : k' ≠ k) :
    ∀ m : List (String × α), (m ++ [(k, v)]).lookup k' = m.lookup k' := by
  intro m
  induction m with
  | nil =>
    rw [List.nil_append, List.lookup_cons]
    have hfalse : (k' == k) = false := by simp [hne]
    simp only [hfalse]
  | cons head tail ih =>
    obtain ⟨k1, v1⟩ := head
    rw [List.cons_append, List.lookup_cons, List.lookup_cons]
    cases hbe : (k' == k1) with
    | true => rfl
    | false => exact ih

/-- Frame property of `d[k] = v`: other keys are untouched. -/
theorem dinsert_lookup_other {α : Type} (m : List (String × α)) (k : String)
    (v : α) (k' : String) (hne : k' ≠ k) :
    (dinsert m k v).lookup k' = m.lookup k' := by
  rw [dinsert]
  by_cases h : (m.lookup k).isSome
  · rw [if_pos h]
    exact lookup_map_replace_other k v k' hne m
  · rw [if_neg h]
    exact lookup_append_other k v k' hne m

/-! ### Fetch loop lemmas -/

theorem fetchLoop_rateLimit_step (ra : Option Nat) (rest : List Resp)
    (url : String) (r : Nat) (cards : List (String × CardRecord))
    (sleeps : List Nat) (h : r < 5) :
    fetchLoop (.rateLimit ra :: rest) url r cards sleeps =
      fetchLoop rest url (r + 1) cards (sleeps ++ [ra.getD 2]) := by
  simp only [fetchLoop]
  rw [if_neg (by omega)]

theorem fetchLoop_rateLimit_exceeded (ra : Option Nat) (rest : List Resp)
    (url : String) (r : Nat) (cards : List (String × CardRecord))
    (sleeps : List Nat) (h : 5 ≤ r) :
    fetchLoop (.rateLimit ra :: rest) url r cards sleeps =
      (sleeps ++ [ra.getD 2],
        .error "Exceeded retry attempts due to Scryfall rate limits.") := by
  simp only [fetchLoop]
  rw [if_pos (by omega)]

theorem fetchLoop_rateLimit_chain (ra : Option Nat) (rest : List Resp)
    (url : String) (cards : List (String × CardRecord)) :
    ∀ (k r : Nat) (sleeps : List Nat), r + k ≤ 5 →
      fetchLoop (List.replicate k (.rateLimit ra) ++ rest) url r cards sleeps =
        fetchLoop rest url (r + k) cards
          (sleeps ++ List.replicate k (ra.getD 2)) := by
  intro k
  induction k with
  | zero => intro r sleeps _; simp
  | succ k ih =>
    intro r sleeps h
    rw [List.replicate_succ, List.cons_append]
    rw [fetchLoop_rateLimit_step ra _ url r cards sleeps (by omega)]
    rw [ih (r + 1) _ (by omega)]
    have h1 : r + 1 + k = r + (k + 1) := by omega
    have h2 : (sleeps ++ [ra.getD 2]) ++ List.replicate k (ra.getD 2) =
        sleeps ++ List.replicate (k + 1) (ra.getD 2) := by
      rw [List.append_assoc]
      rfl
    rw [h1, h2]

theorem fetchLoop_ok_step (p : Payload) (rest : List Resp) (url : String)
    (r : Nat) (cards : List (String × CardRecord)) (sleeps : List Nat)
    (nxt : String) (hmore : p.hasMore = true) (hnxt : p.nextPage = some nxt) :
    fetchLoop (.ok p :: rest) url r cards sleeps =
      fetchLoop rest nxt 0 (addCards cards p.data) sleeps := by
  simp only [fetchLoop]
  rw [hmore, hnxt]
  simp

theorem fetch_pages_ok (pages : List Payload) :
    chained pages = true → ∀ (url : String)
      (cards : List (String × CardRecord)) (sleeps : List Nat),
      fetchLoop (pages.map Resp.ok) url 0 cards sleeps =
        (sleeps, .ok (pages.foldl (fun m p => addCards m p.data) cards)) := by
  induction pages with
  | nil => intro h; exact absurd h (by decide)
  | cons p rest ih =>
    intro h url cards sleeps
    cases rest with
    | nil =>
      have hmore : p.hasMore = false := by
        simpa [chained] using h
      simp only [List.map_cons, List.map_nil, fetchLoop]
      rw [hmore]
      simp
    | cons q rest2 =>
      have hc : (p.hasMore = true ∧ p.nextPage.isSome = true) ∧
          chained (q :: rest2) = true := by
        simpa [chained, Bool.and_eq_true] using h
      obtain ⟨⟨h1, h2⟩, h3⟩ := hc
      obtain ⟨nxt, hnxt⟩ := Option.isSome_iff_exists.mp h2
      rw [List.map_cons,
        fetchLoop_ok_step p _ url 0 cards sleeps nxt h1 hnxt]
      rw [ih h3 nxt (addCards cards p.data) sleeps]
      simp

/-! ### Claim theorems: catalog fetcher -/

/-- C4: on a rate-limit response the fetcher sleeps the server-suggested
duration (or the default 2), retries the same URL with the counter
incremented, fails with the rate-limit error once the ceiling of 5 retries
is exceeded (the sixth consecutive rate limit), and a successful page resets
the retry counter to 0 before the next page is requested. -/
theorem c4_rate_limit_retry :
    (∀ (ra : Option Nat) (rest : List Resp) (url : String) (r : Nat)
        (cards : List (String × CardRecord)) (sleeps : List Nat), r < 5 →
      fetchLoop (.rateLimit ra :: rest) url r cards sleeps =
        fetchLoop rest url (r + 1) cards (sleeps ++ [ra.getD 2])) ∧
    (∀ (ra : Option Nat) (rest : List Resp) (url : String) (r : Nat)
        (cards : List (String × CardRecord)) (sleeps : List Nat), 5 ≤ r →
      fetchLoop (.rateLimit ra :: rest) url r cards sleeps =
        (sleeps ++ [ra.getD 2],
          .error "Exceeded retry attempts due to Scryfall rate limits.")) ∧
    (∀ (p : Payload) (rest : List Resp) (url : String) (r : Nat)
        (cards : List (String × CardRecord)) (sleeps : List Nat)
        (nxt : String), p.hasMore = true → p.nextPage = some nxt →
      fetchLoop (.ok p :: rest) url r cards sleeps =
        fetchLoop rest nxt 0 (addCards cards p.data) sleeps) ∧
    (∀ (ra : Option Nat) (rest : List Resp) (url : String) (k : Nat)
        (cards : List (String × CardRecord)) (sleeps : List Nat), k ≤ 5 →
      fetchLoop (List.replicate k (.rateLimit ra) ++ rest) url 0 cards sleeps =
        fetchLoop rest url k cards
          (sleeps ++ List.replicate k (ra.getD 2))) ∧
    (∀ (ra : Option Nat) (rest : List Resp) (url : String)
        (cards : List (String × CardRecord)) (sleeps : List Nat),
      fetchLoop (List.replicate 6 (.rateLimit ra) ++ rest) url 0 cards sleeps =
        (sleeps ++ List.replicate 6 (ra.getD 2),
          .error "Exceeded retry attempts due to Scryfall rate limits.")) := by
  refine ⟨fetchLoop_rateLimit_step, fetchLoop_rateLimit_exceeded,
    fetchLoop_ok_step, ?_, ?_⟩
  · intro ra rest url k cards sleeps h
    have := fetchLoop_rateLimit_chain ra rest url cards k 0 sleeps (by omega)
    simpa using this
  · intro ra rest url cards sleeps
    rw [show (6 : Nat) = 5 + 1 from rfl, List.replicate_succ',
      List.append_assoc]
    have hchain := fetchLoop_rateLimit_chain ra
      ([Resp.rateLimit ra] ++ rest) url cards 5 0 sleeps (by omega)
    rw [hchain]
    rw [show ([Resp.rateLimit ra] ++ rest) = Resp.rateLimit ra :: rest
      from rfl]
    rw [fetchLoop_rateLimit_exceeded ra rest url (0 + 5) cards _ (by omega)]
    rw [List.append_assoc]
    rfl

/-- Witness for C4 at concrete inputs: one allowed retry, the ceiling
breach at retry counter 5, a page reset, a chain of two rate limits, and
six consecutive rate limits exhausting the budget. -/
theorem c4_rate_limit_retry_witness :
    fetchLoop [.rateLimit (some 7)] "u" 0 [] [] =
      fetchLoop [] "u" 1 [] [7] ∧
    fetchLoop [.rateLimit none] "u" 5 [] [] =
      ([2], .error "Exceeded retry attempts due to Scryfall rate limits.") ∧
    fetchLoop [.ok ⟨[], true, some "u2"⟩] "u" 3 [] [] =
      fetchLoop [] "u2" 0 (addCards [] []) [] ∧
    fetchLoop (List.replicate 2 (.rateLimit none) ++ []) "u" 0 [] [] =
      fetchLoop [] "u" 2 [] ([] ++ List.replicate 2 2) ∧
    fetchLoop (List.replicate 6 (.rateLimit none) ++ []) "u" 0 [] [] =
      ([] ++ List.replicate 6 2,
        .error "Exceeded retry attempts due to Scryfall rate limits.") :=
  ⟨c4_rate_limit_retry.1 (some 7) [] "u" 0 [] [] (by decide),
   c4_rate_limit_retry.2.1 none [] "u" 5 [] [] (by decide),
   c4_rate_limit_retry.2.2.1 ⟨[], true, some "u2"⟩ [] "u" 3 [] [] "u2"
     rfl rfl,
   c4_rate_limit_retry.2.2.2.1 none [] "u" 2 [] [] (by decide),
   c4_rate_limit_retry.2.2.2.2 none [] "u" [] []⟩

/-- C5: for every chain of successful pages the fetcher follows the
continuation references to exhaustion and aggregates every page's records
into one mapping by successive dict assignment; records with an empty name
or an absent rarity are skipped without error; an assignment under an
already present name overwrites the earlier entry; other names are
untouched. -/
theorem c5_fetch_aggregation :
    (∀ pages : List Payload, chained pages = true →
      ∀ (url : String) (cards : List (String × CardRecord))
        (sleeps : List Nat),
        fetchLoop (pages.map Resp.ok) url 0 cards sleeps =
          (sleeps, .ok (pages.foldl (fun m p => addCards m p.data) cards))) ∧
    (∀ (m : List (String × CardRecord)) (c : RawCard),
      c.name = none ∨ c.name = some "" → addCard m c = m) ∧
    (∀ (m : List (String × CardRecord)) (c : RawCard),
      c.rarity = none → addCard m c = m) ∧
    (∀ (m : List (String × CardRecord)) (nm r : String),
      pyStrip nm ≠ "" → r ≠ "" →
      (addCard m ⟨some nm, some r⟩).lookup (pyStrip nm) =
        some ⟨pyStrip nm, r⟩) ∧
    (∀ (m : List (String × CardRecord)) (k : String) (v : CardRecord)
        (k' : String), k' ≠ k → (dinsert m k v).lookup k' = m.lookup k') := by
  refine ⟨fetch_pages_ok, ?_, ?_, ?_, dinsert_lookup_other⟩
  · intro m c h
    have hps : pyStrip "" = "" := rfl
    rcases h with h | h <;>
      (cases hr : c.rarity <;> simp [addCard, h, hr, hps])
  · intro m c h
    rw [addCard, h]
  · intro m nm r hnm hr
    rw [addCard]
    show (if pyStrip nm = "" ∨ r = "" then m
      else dinsert m (pyStrip nm) ⟨pyStrip nm, r⟩).lookup (pyStrip nm) = _
    rw [if_neg (by
      intro hor
      rcases hor with h | h
      · exact hnm h
      · exact hr h)]
    exact dinsert_lookup_self m (pyStrip nm) ⟨pyStrip nm, r⟩

/-- Witness for C5 at a concrete two-page chain whose second page
overwrites a name from the first, plus skipped records and the overwrite
and frame lookups. -/
theorem c5_fetch_aggregation_witness :
    fetchLoop (([⟨[⟨some "Aang", some "rare"⟩], true, some "u2"⟩,
        ⟨[⟨some "Aang", some "mythic"⟩], false, none⟩] :
          List Payload).map Resp.ok) "u" 0 [] [] =
      ([], .ok (([⟨[⟨some "Aang", some "rare"⟩], true, some "u2"⟩,
        ⟨[⟨some "Aang", some "mythic"⟩], false, none⟩] :
          List Payload).foldl (fun m p => addCards m p.data) [])) ∧
    addCard [("Aang", ⟨"Aang", "rare"⟩)] ⟨none, some "rare"⟩ =
      [("Aang", ⟨"Aang", "rare"⟩)] ∧
    addCard [("Aang", ⟨"Aang", "rare"⟩)] ⟨some "Zuko", none⟩ =
      [("Aang", ⟨"Aang", "rare"⟩)] ∧
    (addCard [("Aang", ⟨"Aang", "rare"⟩)]
        ⟨some "Aang", some "mythic"⟩).lookup (pyStrip "Aang") =
      some ⟨pyStrip "Aang", "mythic"⟩ ∧
    (dinsert [("Aang", ⟨"Aang", "rare"⟩)] "Aang"
        (⟨"Aang", "mythic"⟩ : CardRecord)).lookup "Zuko" =
      ([("Aang", (⟨"Aang", "rare"⟩ : CardRecord))]).lookup "Zuko" :=
  ⟨c5_fetch_aggregation.1 _ (by decide) "u" [] [],
   c5_fetch_aggregation.2.1 _ _ (Or.inl rfl),
   c5_fetch_aggregation.2.2.1 _ _ rfl,
   c5_fetch_aggregation.2.2.2.1 _ "Aang" "mythic" (by decide) (by decide),
   c5_fetch_aggregation.2.2.2.2 _ "Aang" ⟨"Aang", "mythic"⟩ "Zuko"
     (by decide)⟩

/-! ### Claim theorems: sheet reconciliation -/

/-- C1: reconciliation processes rows in input order; a row whose trimmed
text is empty yields neither an update nor a missing entry; a row whose
trimmed text is absent from the catalog, or present with a rarity mapping
to no code, appends the original untrimmed text to the missing list;
otherwise `(row_index, code)` is appended to the updates; and the spec's
concrete example evaluates as stated. -/
theorem c1_reconcile_rows :
    (∀ (i : Int) (nm : String) (rest : List (Int × String))
        (cards : List (String × CardRecord)), pyStrip nm = "" →
      reconcile ((i, nm) :: rest) cards = reconcile rest cards) ∧
    (∀ (i : Int) (nm : String) (rest : List (Int × String))
        (cards : List (String × CardRecord)), pyStrip nm ≠ "" →
      cards.lookup (pyStrip nm) = none →
      reconcile ((i, nm) :: rest) cards =
        ((reconcile rest cards).1, nm :: (reconcile rest cards).2)) ∧
    (∀ (i : Int) (nm : String) (rest : List (Int × String))
        (cards : List (String × CardRecord)) (card : CardRecord),
      pyStrip nm ≠ "" → cards.lookup (pyStrip nm) = some card →
      card.rarity_code = none →
      reconcile ((i, nm) :: rest) cards =
        ((reconcile rest cards).1, nm :: (reconcile rest cards).2)) ∧
    (∀ (i : Int) (nm : String) (rest : List (Int × String))
        (cards : List (String × CardRecord)) (card : CardRecord)
        (code : String),
      pyStrip nm ≠ "" → cards.lookup (pyStrip nm) = some card →
      card.rarity_code = some code →
      reconcile ((i, nm) :: rest) cards =
        ((i, code) :: (reconcile rest cards).1, (reconcile rest cards).2)) ∧
    reconcile [(2, "Aang"), (3, ""), (4, "Unknown Card"), (5, "Zuko")]
      [("Aang", ⟨"Aang", "mythic"⟩), ("Zuko", ⟨"Zuko", "common"⟩)] =
      ([(2, "M"), (5, "C")], ["Unknown Card"]) := by
  refine ⟨?_, ?_, ?_, ?_, by decide⟩
  · intro i nm rest cards h
    rcases hrec : reconcile rest cards with ⟨us, ms⟩
    simp [reconcile, hrec, h]
  · intro i nm rest cards h hl
    rcases hrec : reconcile rest cards with ⟨us, ms⟩
    simp [reconcile, hrec, h, hl]
  · intro i nm rest cards card h hl hc
    rcases hrec : reconcile rest cards with ⟨us, ms⟩
    simp [reconcile, hrec, h, hl, hc]
  · intro i nm rest cards card code h hl hc
    rcases hrec : reconcile rest cards with ⟨us, ms⟩
    simp [reconcile, hrec, h, hl, hc]

/-- Witness for C1 at concrete rows exercising every branch: a blank row,
an unknown name, a known name with an unmapped rarity, and a known name
with a mapped rarity. -/
theorem c1_reconcile_rows_witness :
    reconcile [((3 : Int), " ")] [] = reconcile [] [] ∧
    reconcile [((4 : Int), "Unknown")] [] =
      ((reconcile [] []).1, "Unknown" :: (reconcile [] []).2) ∧
    reconcile [((6 : Int), "X")] [("X", ⟨"X", "special"⟩)] =
      ((reconcile [] [("X", ⟨"X", "special"⟩)]).1,
        "X" :: (reconcile [] [("X", ⟨"X", "special"⟩)]).2) ∧
    reconcile [((2 : Int), "Aang")] [("Aang", ⟨"Aang", "mythic"⟩)] =
      ((2, "M") :: (reconcile [] [("Aang", ⟨"Aang", "mythic"⟩)]).1,
        (reconcile [] [("Aang", ⟨"Aang", "mythic"⟩)]).2) :=
  ⟨c1_reconcile_rows.1 3 " " [] [] (by decide),
   c1_reconcile_rows.2.1 4 "Unknown" [] [] (by decide) (by decide),
   c1_reconcile_rows.2.2.1 6 "X" [] [("X", ⟨"X", "special"⟩)]
     ⟨"X", "special"⟩ (by decide) (by decide) (by decide),
   c1_reconcile_rows.2.2.2.1 2 "Aang" [] [("Aang", ⟨"Aang", "mythic"⟩)]
     ⟨"Aang", "mythic"⟩ "M" (by decide) (by decide) (by decide)⟩

/-- C6: both outputs of reconciliation preserve the input row order — they
are the `filterMap` of a single per-row classifier over the rows, so each
row contributes at most one outcome, never both — and consequently the two
output lengths sum to at most the number of rows. -/
theorem c6_reconcile_invariants :
    ∀ (rows : List (Int × String)) (cards : List (String × CardRecord)),
      (reconcile rows cards).1 = rows.filterMap (fun r =>
        match rowOutcome cards r with
        | .updated code => some (r.1, code)
        | _ => none) ∧
      (reconcile rows cards).2 = rows.filterMap (fun r =>
        match rowOutcome cards r with
        | .missing => some r.2
        | _ => none) ∧
      (reconcile rows cards).1.length + (reconcile rows cards).2.length ≤
        rows.length := by
  intro rows cards
  induction rows with
  | nil => exact ⟨rfl, rfl, by simp [reconcile]⟩
  | cons r rest ih =>
    obtain ⟨i, nm⟩ := r
    obtain ⟨ih1, ih2, ih3⟩ := ih
    rcases hrec : reconcile rest cards with ⟨us, ms⟩
    rw [hrec] at ih1 ih2 ih3
    simp only at ih1 ih2 ih3
    by_cases hn : pyStrip nm = ""
    · refine ⟨?_, ?_, ?_⟩
      · simp [reconcile, hrec, rowOutcome, hn, ih1]
      · simp [reconcile, hrec, rowOutcome, hn, ih2]
      · simp [reconcile, hrec, hn]
        omega
    · cases hl : cards.lookup (pyStrip nm) with
      | none =>
        refine ⟨?_, ?_, ?_⟩
        · simp [reconcile, hrec, rowOutcome, hn, hl, ih1]
        · simp [reconcile, hrec, rowOutcome, hn, hl, ih2]
        · simp [reconcile, hrec, hn, hl]
          omega
      | some card =>
        cases hc : card.rarity_code with
        | none =>
          refine ⟨?_, ?_, ?_⟩
          · simp [reconcile, hrec, rowOutcome, hn, hl, hc, ih1]
          · simp [reconcile, hrec, rowOutcome, hn, hl, hc, ih2]
          · simp [reconcile, hrec, hn, hl, hc]
            omega
        | some code =>
          refine ⟨?_, ?_, ?_⟩
          · simp [reconcile, hrec, rowOutcome, hn, hl, hc, ih1]
          · simp [reconcile, hrec, rowOutcome, hn, hl, hc, ih2]
          · simp [reconcile, hrec, hn, hl, hc]
            omega

/-! ### Claim theorems: rarity mapper -/

theorem pyLowerChar_idem (c : Char) :
    pyLowerChar (pyLowerChar c) = pyLowerChar c := by
  by_cases h : 'A' ≤ c ∧ c ≤ 'Z'
  · have hA : ('A').toNat = 65 := by decide
    have hZ : ('Z').toNat = 90 := by decide
    have h1 := char_le_iff.mp h.1
    have h2 := char_le_iff.mp h.2
    have hout : pyLowerChar c = Char.ofNat (c.toNat + 32) := by
      rw [pyLowerChar, if_pos h]
    have htn : (Char.ofNat (c.toNat + 32)).toNat = c.toNat + 32 :=
      char_toNat_ofNat (by omega)
    rw [hout]
    rw [pyLowerChar, if_neg (by
      intro ⟨_, hle⟩
      have := char_le_iff.mp hle
      omega)]
  · have hc : pyLowerChar c = c := by rw [pyLowerChar, if_neg h]
    rw [hc, hc]

theorem pyLower_idem (s : String) : pyLower (pyLower s) = pyLower s := by
  show (⟨((s.data.map pyLowerChar).map pyLowerChar)⟩ : String) = _
  rw [List.map_map]
  have hf : pyLowerChar ∘ pyLowerChar = pyLowerChar :=
    funext pyLowerChar_idem
  rw [hf]
  rfl

/-- C8: `mapRarity` is a case-insensitive lookup in the fixed table
mythic→M, rare→R, uncommon→U, common→C (so two texts with the same
lowercasing map identically, and `CardRecord.rarity_code` is exactly
`mapRarity` of the rarity text), with `mapRarity "Rare" = mapRarity "rare"
= some "R"`, and every unrecognized text yields `none` rather than an
error. -/
theorem c8_map_rarity :
    (∀ s t : String, pyLower s = pyLower t → mapRarity s = mapRarity t) ∧
    (∀ s : String, mapRarity (pyLower s) = mapRarity s) ∧
    (∀ c : CardRecord, c.rarity_code = mapRarity c.rarity) ∧
    mapRarity "Rare" = some "R" ∧ mapRarity "rare" = some "R" ∧
    mapRarity "Mythic" = some "M" ∧ mapRarity "Uncommon" = some "U" ∧
    mapRarity "Common" = some "C" ∧ mapRarity "special" = none ∧
    (∀ s : String, pyLower s ∉ ["mythic", "rare", "uncommon", "common"] →
      mapRarity s = none) := by
  refine ⟨?_, ?_, fun c => rfl, by decide, by decide, by decide, by decide,
    by decide, by decide, ?_⟩
  · intro s t h
    rw [mapRarity, mapRarity, h]
  · intro s
    rw [mapRarity, mapRarity, pyLower_idem]
  · intro s h
    simp only [List.mem_cons, List.not_mem_nil, or_false, not_or] at h
    obtain ⟨h1, h2, h3, h4⟩ := h
    have b1 : (pyLower s == "mythic") = false := beq_eq_false_iff_ne.mpr h1
    have b2 : (pyLower s == "rare") = false := beq_eq_false_iff_ne.mpr h2
    have b3 : (pyLower s == "uncommon") = false := beq_eq_false_iff_ne.mpr h3
    have b4 : (pyLower s == "common") = false := beq_eq_false_iff_ne.mpr h4
    rw [mapRarity, RARITY_MAP]
    simp [List.lookup_cons, b1, b2, b3, b4]

/-- Witness for C8 at concrete inputs: two casings of "rare" agree, a fully
mixed casing is stable under lowercasing, and `"SPECIAL"` is unrecognized. -/
theorem c8_map_rarity_witness :
    mapRarity "RARE" = mapRarity "RaRe" ∧
    mapRarity (pyLower "RaRe") = mapRarity "RaRe" ∧
    mapRarity "SPECIAL" = none :=
  ⟨c8_map_rarity.1 "RARE" "RaRe" (by decide),
   c8_map_rarity.2.1 "RaRe",
   c8_map_rarity.2.2.2.2.2.2.2.2.2 "SPECIAL" (by decide)⟩

/-! ### Claim theorems: orchestrator -/

/-- C9: in dry-run mode `sync_sheet` never issues a write call; when it
returns a result, the preview list has exactly one line per computed update
(its length equals the updated count); and on a valid configuration the
previews are precisely the per-update preview lines and the result reports
the update count and missing names of the reconciliation. -/
theorem c9_dry_run :
    (∀ (column : String) (startRow : Int)
        (cards : List (String × CardRecord)) (values : List (List String)),
      NetEvent.writeSheet ∉ (sync_sheet column startRow cards true values).events) ∧
    (∀ (column : String) (startRow : Int)
        (cards : List (String × CardRecord)) (values : List (List String))
        (res : SyncResult),
      (sync_sheet column startRow cards true values).result = .ok res →
      (sync_sheet column startRow cards true values).previews.length =
        res.updated) ∧
    (∀ (column : String) (startRow : Int)
        (cards : List (String × CardRecord)) (values : List (List String))
        (ci : Nat), ¬(startRow < 1) → column_to_index column = .ok ci →
      (sync_sheet column startRow cards true values).previews =
        (reconcile (enumRows startRow values) cards).1.map
          (fun u => "Would update row " ++ toString u.1 ++ " to " ++ u.2) ∧
      (sync_sheet column startRow cards true values).result =
        .ok ⟨(reconcile (enumRows startRow values) cards).1.length,
             (reconcile (enumRows startRow values) cards).2⟩) := by
  refine ⟨?_, ?_, ?_⟩
  · intro column startRow cards values
    by_cases hs : startRow < 1
    · simp [sync_sheet, hs]
    · rw [sync_sheet, if_neg hs]
      cases hcol : column_to_index column with
      | error e => simp
      | ok ci =>
        have hlt : ¬((ci : Int) + 1 < 1) := by omega
        rcases hrec : reconcile (enumRows startRow values) cards with ⟨us, ms⟩
        simp [index_to_column, hlt, hrec]
  · intro column startRow cards values res hres
    by_cases hs : startRow < 1
    · rw [sync_sheet, if_pos hs] at hres
      exact absurd hres (by simp)
    · rw [sync_sheet, if_neg hs] at hres ⊢
      cases hcol : column_to_index column with
      | error e =>
        rw [hcol] at hres
        simp at hres
      | ok ci =>
        have hlt : ¬((ci : Int) + 1 < 1) := by omega
        have hlt0 : ¬((ci : Int) < 0) := by omega
        rcases hrec : reconcile (enumRows startRow values) cards with ⟨us, ms⟩
        rw [hcol] at hres
        simp [index_to_column, hlt, hlt0, hrec] at hres ⊢
        subst hres
        rfl
  · intro column startRow cards values ci hs hcol
    have hlt : ¬((ci : Int) + 1 < 1) := by omega
    rw [sync_sheet, if_neg hs, hcol]
    rcases hrec : reconcile (enumRows startRow values) cards with ⟨us, ms⟩
    simp [index_to_column, hlt, hrec]

/-- Witness for C9 (third part) at a concrete dry run over two rows, one
matched and one unmatched. -/
theorem c9_dry_run_witness :
    (sync_sheet "A" 2 [("Aang", ⟨"Aang", "mythic"⟩)] true
        [["Aang"], ["Bolin"]]).previews =
      (reconcile (enumRows 2 [["Aang"], ["Bolin"]])
        [("Aang", ⟨"Aang", "mythic"⟩)]).1.map
          (fun u => "Would update row " ++ toString u.1 ++ " to " ++ u.2) ∧
    (sync_sheet "A" 2 [("Aang", ⟨"Aang", "mythic"⟩)] true
        [["Aang"], ["Bolin"]]).result =
      .ok ⟨(reconcile (enumRows 2 [["Aang"], ["Bolin"]])
              [("Aang", ⟨"Aang", "mythic"⟩)]).1.length,
           (reconcile (enumRows 2 [["Aang"], ["Bolin"]])
              [("Aang", ⟨"Aang", "mythic"⟩)]).2⟩ :=
  c9_dry_run.2.2 "A" 2 [("Aang", ⟨"Aang", "mythic"⟩)] [["Aang"], ["Bolin"]]
    1 (by decide) (by decide)

/-- C2 as stated is false: with a non-positive start row (0) the run still
creates the spreadsheet and fetches the catalog — two network calls — before
the validation error `start_row must be >= 1` is raised. -/
theorem c2_counterexample :
    mainRun ⟨none, "A", 0, false⟩ ⟨[], []⟩ =
      ([.createSpreadsheet, .fetchCatalog], .error "start_row must be >= 1") ∧
    ([NetEvent.createSpreadsheet, NetEvent.fetchCatalog] : List NetEvent) ≠
      [] := by
  exact ⟨by decide, by decide⟩

/-- C2 amended: a non-positive start row fails with the validation error
only after the catalog fetch (and any spreadsheet creation) but before the
spreadsheet read; an empty (after trimming) column letter fails only after
the spreadsheet read; neither performs a write. -/
theorem c2_validation_order :
    (∀ (cfg : Config) (o : Oracles), cfg.startRow < 1 →
      (mainRun cfg o).2 = .error "start_row must be >= 1" ∧
      NetEvent.readSheet ∉ (mainRun cfg o).1 ∧
      NetEvent.writeSheet ∉ (mainRun cfg o).1 ∧
      NetEvent.fetchCatalog ∈ (mainRun cfg o).1) ∧
    (∀ (cfg : Config) (o : Oracles), ¬(cfg.startRow < 1) →
      pyUpper (pyStrip cfg.column) = "" →
      (mainRun cfg o).2 = .error "Column reference cannot be empty." ∧
      NetEvent.readSheet ∈ (mainRun cfg o).1 ∧
      NetEvent.writeSheet ∉ (mainRun cfg o).1) := by
  constructor
  · intro cfg o h
    cases hid : cfg.sheetId <;>
      simp [mainRun, sync_sheet, hid, h]
  · intro cfg o hs hcol
    have hcalc : column_to_index cfg.column =
        .error "Column reference cannot be empty." := by
      rw [column_to_index, if_pos hcol]
    cases hid : cfg.sheetId <;>
      simp [mainRun, sync_sheet, hid, hs, hcalc]

/-- Witness for C2 (amended) at concrete configurations: start row 0 with a
spreadsheet to create, and an explicit sheet id with a whitespace-only
column. -/
theorem c2_validation_order_witness :
    ((mainRun ⟨none, "A", 0, false⟩ ⟨[], []⟩).2 =
        .error "start_row must be >= 1" ∧
      NetEvent.readSheet ∉ (mainRun ⟨none, "A", 0, false⟩ ⟨[], []⟩).1 ∧
      NetEvent.writeSheet ∉ (mainRun ⟨none, "A", 0, false⟩ ⟨[], []⟩).1 ∧
      NetEvent.fetchCatalog ∈ (mainRun ⟨none, "A", 0, false⟩ ⟨[], []⟩).1) ∧
    ((mainRun ⟨some "sheet-id", " ", 2, false⟩ ⟨[], []⟩).2 =
        .error "Column reference cannot be empty." ∧
      NetEvent.readSheet ∈
        (mainRun ⟨some "sheet-id", " ", 2, false⟩ ⟨[], []⟩).1 ∧
      NetEvent.writeSheet ∉
        (mainRun ⟨some "sheet-id", " ", 2, false⟩ ⟨[], []⟩).1) :=
  ⟨c2_validation_order.1 ⟨none, "A", 0, false⟩ ⟨[], []⟩ (by decide),
   c2_validation_order.2 ⟨some "sheet-id", " ", 2, false⟩ ⟨[], []⟩
     (by decide) (by decide)⟩
